import Mathlib

/-!
Verification of the Butter-Launcher install and patch orchestrator.

The definitions below are a shallow embedding of the TypeScript sources
`electron/utils/game/install.ts`, `electron/utils/game/onlinePatch.ts` and
`electron/utils/game/butler.ts`.  Filesystem state is modelled explicitly,
JavaScript numbers are modelled as rationals, and collaborator modules that
are not part of the sources (paths, manifest, check, jre) are modelled from
the specification where noted.
-/

namespace ButterLauncher

/-- JSON values as produced by a successful `JSON.parse` of a stdout line of
the butler tool.  Numbers are modelled as rationals; `JSON.parse` never
produces `NaN` from valid JSON text.  Duplicate object keys follow the
JavaScript semantics where the last occurrence wins (see `lookupLast`). -/
inductive Json where
  | jnull : Json
  | jbool : Bool → Json
  | jnum : Rat → Json
  | jstr : String → Json
  | jarr : List Json → Json
  | jobj : List (String × Json) → Json

/-- Last-wins association lookup, matching how `JSON.parse` materialises
duplicate keys in a JavaScript object. -/
def lookupLast (k : String) : List (String × Json) → Option Json
  | [] => none
  | (k', v) :: rest =>
    match lookupLast k rest with
    | some r => some r
    | none => if k' = k then some v else none

/-- Property access `obj.k` on a parsed JSON value: defined for objects,
`undefined` (here `none`) for every other shape. -/
def getField (j : Json) (k : String) : Option Json :=
  match j with
  | .jobj kvs => lookupLast k kvs
  | _ => none

/-- The `type` field coerced as in the source: a string field is taken as-is,
anything else collapses to the empty string
(`typeof obj?.type === "string" ? obj.type : ""`). -/
def jsonTypeStr (j : Json) : String :=
  match getField j "type" with
  | some (.jstr s) => s
  | _ => ""

/-- A field read as a number (`typeof obj?.k === "number"`). -/
def jsonNumField (j : Json) (k : String) : Option Rat :=
  match getField j k with
  | some (.jnum q) => some q
  | _ => none

/-- List-of-characters prefix test, used to implement substring search. -/
def isPrefixL : List Char → List Char → Bool
  | [], _ => true
  | _ :: _, [] => false
  | a :: as, b :: bs => (a = b) && isPrefixL as bs

/-- Substring containment on character lists, the model of
`String.prototype.includes`. -/
def containsSub (needle : List Char) : List Char → Bool
  | [] => isPrefixL needle []
  | b :: bs => isPrefixL needle (b :: bs) || containsSub needle bs

/-- Lower-casing of a string to a character list, the model of
`String.prototype.toLowerCase` for the ASCII data involved. -/
def toLowerList (s : String) : List Char :=
  s.toList.map Char.toLower

/-- JavaScript `Math.round` on a non-negative rational: half-up rounding. -/
def jsRound (q : Rat) : Int :=
  Int.floor (q + (1 : Rat) / 2)

/-- Classification of a parsed stdout line as a progress record
(install.ts lines 174-180): the `type` field contains the substring
"progress" case-insensitively, or a numeric `percentage` or `percent`
field is present. -/
def isProgressLine (j : Json) : Bool :=
  containsSub "progress".toList (toLowerList (jsonTypeStr j)) ||
  (jsonNumField j "percentage").isSome ||
  (jsonNumField j "percent").isSome

/-- Numeric progress extraction in priority order `percentage`, `percent`,
`progress` (install.ts lines 182-185). -/
def extractPercent (j : Json) : Option Rat :=
  match jsonNumField j "percentage" with
  | some q => some q
  | none =>
    match jsonNumField j "percent" with
    | some q => some q
    | none => jsonNumField j "progress"

/-- Normalisation of an extracted progress number (install.ts lines 188-194):
values in the half-open interval (0,1] are scaled by 100, the result is
clamped to [0,100] and rounded with `Math.round`. -/
def normalizeButlerPercent (q : Rat) : Int :=
  let q1 := if 0 < q ∧ q ≤ 1 then q * 100 else q
  let q2 := max 0 (min 100 q1)
  jsRound q2

/-- The complete per-line handler of the butler stdout reader
(install.ts lines 166-199).  `none` as input stands for a line that failed
`JSON.parse`; the output is the percent forwarded as a patching progress
event, or `none` when no event is emitted. -/
def butlerLinePercent (line : Option Json) : Option Int :=
  match line with
  | none => none
  | some j =>
    if isProgressLine j then
      match extractPercent j with
      | some q => some (normalizeButlerPercent q)
      | none => none
    else none

/-- Specification-side restatement of the line protocol, written from the
words of the claim: a line is forwarded iff it parses, is classified as a
progress record (type contains "progress" case-insensitively, or a numeric
percentage or percent field exists), and a numeric value is found by the
priority order percentage, percent, progress; the value is scaled when in
(0,1], clamped to [0,100] and rounded. -/
def progressLineSpec (line : Option Json) : Option Int :=
  match line with
  | none => none
  | some j =>
    let classified : Prop :=
      containsSub "progress".toList (toLowerList (jsonTypeStr j)) = true ∨
      (jsonNumField j "percentage").isSome = true ∨
      (jsonNumField j "percent").isSome = true
    if _h : classified then
      (extractPercent j).map (fun q =>
        jsRound (max 0 (min 100 (if 0 < q ∧ q ≤ 1 then 100 * q else q))))
    else
      none

/-! ## Progress events -/

/-- Release channel of a version (the `type` field of a `GameVersion`). -/
inductive Channel where
  | release : Channel
  | prerelease : Channel
deriving DecidableEq, Repr

/-- The version descriptor supplied by the version catalog
(`GameVersion` in the sources). -/
structure GameVersion where
  vtype : Channel
  build_index : Nat
  build_name : String
  url : String
  isLatest : Bool
  patch_url : Option String
  patch_hash : Option String
deriving DecidableEq, Repr

/-- The persisted install manifest record.  Modelled from the spec:
`manifest.ts` is not among the sources; section 4.2 of the spec describes the
record as build index plus build name. -/
structure InstallManifest where
  build_index : Nat
  build_name : String
deriving DecidableEq, Repr

/-- Progress phases used in emitted events. -/
inductive Phase where
  | pwrDownload : Phase
  | patching : Phase
  | onlinePatch : Phase
deriving DecidableEq, Repr

/-- Payload of an `install-progress` or `online-patch-progress` event. -/
structure Progress where
  phase : Phase
  percent : Int
  total : Option Nat
  current : Option Nat
deriving DecidableEq, Repr

/-- Events sent to the renderer window, in emission order. -/
inductive Event where
  | installStarted : Event
  | progress : Progress → Event
  | installFinished : GameVersion → Event
  | installError : String → Event
  | onlinePatchError : String → Event
deriving DecidableEq, Repr

/-- Percent for a chunk callback of the PWR download (install.ts lines 83-86):
defined only when a positive content length is known, otherwise -1. -/
def pwrChunkPercent (total? : Option Nat) (downloaded : Nat) : Int :=
  match total? with
  | some t => if 0 < t then Int.ofNat ((200 * downloaded + t) / (2 * t)) else -1
  | none => -1

/-- Percent of the initial PWR download event (install.ts line 74): the
JavaScript truthiness test `totalLength ? 0 : -1` sends 0 only for a known
non-zero length. -/
def pwrStartPercent (total? : Option Nat) : Int :=
  match total? with
  | some t => if 0 < t then 0 else -1
  | none => -1

/-- Per-chunk progress events of the PWR download, with `acc` bytes already
received (install.ts lines 80-94). -/
def pwrChunkEvents (total? : Option Nat) : Nat → List Nat → List Event
  | _, [] => []
  | acc, c :: cs =>
    let d := acc + c
    .progress ⟨.pwrDownload, pwrChunkPercent total? d, total?, some d⟩ ::
      pwrChunkEvents total? d cs

/-- Event trace of `downloadPWR` after a successful fetch (install.ts lines
71-110): a start event, one event per received chunk, and — only when the
stream pipeline completes — a final percent-100 event. -/
def downloadPWREvents (total? : Option Nat) (chunks : List Nat)
    (streamOk : Bool) : List Event :=
  .progress ⟨.pwrDownload, pwrStartPercent total?, total?, some 0⟩ ::
    pwrChunkEvents total? 0 chunks ++
    (if streamOk then
      [.progress ⟨.pwrDownload, 100, total?, some chunks.sum⟩]
    else [])

/-- Percent for a chunk callback of the online-patch download
(onlinePatch.ts lines 53-56); a content length of 0 encodes a missing
header (`contentLength ? parseInt(contentLength, 10) : 0`). -/
def onlineChunkPercent (total downloaded : Nat) : Int :=
  if 0 < total then Int.ofNat ((200 * downloaded + total) / (2 * total)) else -1

/-- Per-chunk progress events of `downloadFileWithProgress`
(onlinePatch.ts lines 49-64). -/
def onlineChunkEvents (total : Nat) : Nat → List Nat → List Event
  | _, [] => []
  | acc, c :: cs =>
    let d := acc + c
    .progress ⟨.onlinePatch, onlineChunkPercent total d,
        if 0 < total then some total else none, some d⟩ ::
      onlineChunkEvents total d cs

/-- Event trace of `downloadFileWithProgress` after a successful fetch
(onlinePatch.ts lines 49-87): an initial event, one event per chunk, and a
final percent-100 event when the pipeline completes. -/
def onlineDownloadEvents (total : Nat) (chunks : List Nat)
    (streamOk : Bool) : List Event :=
  .progress ⟨.onlinePatch, if 0 < total then 0 else -1,
      if 0 < total then some total else none, some 0⟩ ::
    onlineChunkEvents total 0 chunks ++
    (if streamOk then
      [.progress ⟨.onlinePatch, 100,
        if 0 < total then some total else none, some chunks.sum⟩]
    else [])

/-- Progress events produced by the butler stdout reader for a list of parsed
lines (install.ts lines 166-199). -/
def applyPWRLineEvents (lines : List (Option Json)) : List Event :=
  (lines.filterMap butlerLinePercent).map
    (fun p => .progress ⟨.patching, p, none, none⟩)

/-- Install directory roles inside one channel of the versioned layout.
Modelled from the spec: `paths.ts` is not among the sources; section 4.1 and
the filesystem layout of section 6 describe the latest alias and the numbered
build directories. -/
inductive Loc where
  | latest : Loc
  | build : Nat → Loc
deriving DecidableEq, Repr

/-- Model of `applyPWR` once the process object exists (install.ts lines
139-220): the initial indeterminate patching event is emitted before the
spawn; on a spawn error the promise rejects; otherwise every stdout line is
examined and, on process close, a final percent-100 patching event is
emitted and the promise resolves with the install directory.  The exit code
`_code` is received by the close handler but only logged, never inspected. -/
def applyPWR (spawnOk : Bool) (lines : List (Option Json)) (_code : Int)
    (installDir : Loc) : List Event × Option Loc :=
  let initial : Event := .progress ⟨.patching, -1, none, none⟩
  if spawnOk then
    (initial :: applyPWRLineEvents lines ++
      [.progress ⟨.patching, 100, none, none⟩], some installDir)
  else
    ([initial], none)

/-! ## Filesystem model for the install orchestrator -/

/-- Contents of one install directory.  `payload` abstracts the game files
materialised by the patch tool, so that moving or preserving a directory is
observable as preservation of the whole record.  `execBit` is the executable
permission bit of the client binary. -/
structure DirState where
  manifest : Option InstallManifest
  client : Bool
  server : Bool
  execBit : Bool
  payload : Nat
deriving DecidableEq, Repr

/-- An install directory freshly created by `mkdirSync`. -/
def emptyDir : DirState :=
  { manifest := none, client := false, server := false,
    execBit := false, payload := 0 }

/-- Filesystem state relevant to one `installGame` invocation: the latest
alias, the numbered build directories of the channel being installed, the
managed runtime, the cached butler binary, the legacy single-channel layout
flag and the temporary PWR artifact. -/
structure FS where
  latest : Option DirState
  builds : Nat → Option DirState
  jre : Bool
  butler : Bool
  legacyChannel : Bool
  tempPWR : Bool

/-- Read a directory of the install tree. -/
def getDir (s : FS) : Loc → Option DirState
  | .latest => s.latest
  | .build n => s.builds n

/-- Replace a directory of the install tree. -/
def setDir (s : FS) (l : Loc) (d : Option DirState) : FS :=
  match l with
  | .latest => { s with latest := d }
  | .build n => { s with builds := fun m => if m = n then d else s.builds m }

/-- Modelled from the spec: `resolveInstallDir` of the missing `paths.ts`
maps a version to the latest alias when `is_latest` is true and to its
numbered build directory otherwise (spec section 4.1). -/
def resolveInstallDir (v : GameVersion) : Loc :=
  if v.isLatest then .latest else .build v.build_index

/-- Modelled from the spec: `readInstallManifest` of the missing
`manifest.ts` returns the persisted record of a directory, or absent when
the directory or the record is missing (spec section 4.2). -/
def readInstallManifest (s : FS) (l : Loc) : Option InstallManifest :=
  (getDir s l).bind (fun d => d.manifest)

/-- Modelled from the spec: `writeInstallManifest` of the missing
`manifest.ts` persists the build index and build name of the installed
version into the install directory (spec section 4.2). -/
def writeInstallManifest (s : FS) (l : Loc) (v : GameVersion) : FS :=
  let d := (getDir s l).getD emptyDir
  setDir s l (some { d with manifest := some ⟨v.build_index, v.build_name⟩ })

/-- Result of `checkGameInstallation`. -/
structure CheckResult where
  client : Bool
  server : Bool
  jre : Bool
deriving DecidableEq, Repr

/-- Modelled from the spec: `checkGameInstallation` of the missing `check.ts`
inspects presence of the client executable, the server executable and the
managed runtime for the resolved install directory (spec section 4.6 step 3). -/
def checkGameInstallation (s : FS) (v : GameVersion) : CheckResult :=
  match getDir s (resolveInstallDir v) with
  | some d => ⟨d.client, d.server, s.jre⟩
  | none => ⟨false, false, s.jre⟩

/-- Modelled from the spec: `migrateLegacyChannelInstallIfNeeded` of the
missing `paths.ts` performs a one-time idempotent migration of the legacy
single-channel layout; it is a no-op on an already migrated tree
(spec section 4.1). -/
def migrateLegacyChannelInstallIfNeeded (s : FS) : FS :=
  { s with legacyChannel := false }

/-- Retirement of an out-of-date latest directory (install.ts lines 235-260):
when installing a latest release and the latest alias holds a manifest with a
different build index, the alias directory is renamed to its numbered build
directory, unless that directory already exists, in which case the alias is
deleted. -/
def retireLatest (v : GameVersion) (s : FS) : FS :=
  if v.vtype = Channel.release ∧ v.isLatest = true then
    match s.latest with
    | some d =>
      match d.manifest with
      | some m =>
        if m.build_index ≠ v.build_index then
          match s.builds m.build_index with
          | some _ => { s with latest := none }
          | none =>
            { s with
                latest := none
                builds := fun n =>
                  if n = m.build_index then some d else s.builds n }
        else s
      | none => s
    | none => s
  else s

/-- State of the install tree after the resolution steps of `installGame`
that precede the patch decision: legacy migration followed by retirement of
the latest alias. -/
def postResolveState (v : GameVersion) (s : FS) : FS :=
  retireLatest v (migrateLegacyChannelInstallIfNeeded s)

/-- The manifest comparison of install.ts lines 266-268:
`installedManifest?.build_index === version.build_index`. -/
def manifestMatches (s : FS) (v : GameVersion) : Bool :=
  match readInstallManifest s (resolveInstallDir v) with
  | some m => m.build_index == v.build_index
  | none => false

/-- Environment oracle for one `installGame` invocation: the platform, the
outcomes of the fallible external steps and the data carried by the download
stream and the patch tool. -/
structure Env where
  platform : String
  jreOk : Bool
  butlerOk : Bool
  fetchOk : Bool
  total? : Option Nat
  chunks : List Nat
  streamOk : Bool
  spawnOk : Bool
  spawnErrMsg : String
  exitCode : Int
  stdoutLines : List (Option Json)
  unlinkOk : Bool
  unlinkErrMsg : String
  chmodOk : Bool

/-- Result of an `installGame` invocation: the final filesystem state, the
events sent to the window, the number of network fetches, of PWR artifact
downloads and of patch-tool spawns, and the returned boolean. -/
structure RunResult where
  fs : FS
  events : List Event
  netCalls : Nat
  pwrDownloads : Nat
  spawns : Nat
  ok : Bool

/-- Effect of a completed patch-tool run on the install directory: the
directory exists afterwards and the client and server binaries are
materialised (spec section 4.4, the tool applies the artifact into the
target directory); freshly written binaries may lose the executable bit
(install.ts line 306 comment). -/
def applyPWRDir (v : GameVersion) (d? : Option DirState) : DirState :=
  let d := d?.getD emptyDir
  { d with
      client := true
      server := true
      execBit := false
      payload := v.build_index }

/-- Best-effort restoration of the executable bit on the client binary
(install.ts lines 24-43): a no-op on Windows; otherwise the bit is set when
the chmod succeeds and any error is swallowed. -/
def ensureClientExecutable (env : Env) (s : FS) (l : Loc) : FS :=
  if env.platform = "win32" then s
  else
    match getDir s l with
    | some d =>
      if d.client && env.chmodOk then
        setDir s l (some { d with execBit := true })
      else s
    | none => s

/-- The download-and-patch cycle shared by the two patching branches of
`installGame` (install.ts lines 286-308 and 316-334): install butler,
download the PWR artifact, apply it with the patch tool, delete the
artifact (an unguarded `unlinkSync`), write the manifest and restore the
executable bit.  `evs` and the counters accumulate the run so far; the
returned `ok` reflects whether the cycle completed without a thrown error. -/
def patchCycle (env : Env) (v : GameVersion) (dir : Loc) (s : FS)
    (evs : List Event) (net : Nat) : RunResult :=
  -- installButler (butler.ts): cached binary short-circuits the download.
  let net1 := if s.butler then net else net + 1
  if !s.butler && !env.butlerOk then
    ⟨s, evs ++ [.installError "Failed to install butler"], net1, 0, 0, false⟩
  else
    let s1 := { s with butler := true }
    -- downloadPWR: a fetch is attempted; on failure the helper returns null
    -- and installGame throws.
    let net2 := net1 + 1
    if !env.fetchOk then
      ⟨s1, evs ++ [.installError "Failed to download PWR"], net2, 1, 0, false⟩
    else if !env.streamOk then
      ⟨s1, evs ++ downloadPWREvents env.total? env.chunks false ++
          [.installError "Failed to download PWR"], net2, 1, 0, false⟩
    else
      let s2 := { s1 with tempPWR := true }
      let evs1 := evs ++ downloadPWREvents env.total? env.chunks true
      -- applyPWR: the install directory is created before the spawn.
      let s3 := setDir s2 dir (some ((getDir s2 dir).getD emptyDir))
      let ap := applyPWR env.spawnOk env.stdoutLines env.exitCode dir
      if ap.2.isNone then
        ⟨s3, evs1 ++ ap.1 ++ [.installError env.spawnErrMsg],
          net2, 1, 1, false⟩
      else
        let s4 := setDir s3 dir (some (applyPWRDir v (getDir s3 dir)))
        let evs2 := evs1 ++ ap.1
        if !env.unlinkOk then
          ⟨s4, evs2 ++ [.installError env.unlinkErrMsg], net2, 1, 1, false⟩
        else
          let s5 := { s4 with tempPWR := false }
          let s6 := writeInstallManifest s5 dir v
          let s7 := ensureClientExecutable env s6 dir
          ⟨s7, evs2, net2, 1, 1, true⟩

/-- Model of `installGame` (install.ts lines 223-353): legacy migration,
retirement of the latest alias, resolution of the install directory,
binary and manifest inspection, runtime installation, the patch decision
and the two patching branches, ending in an install-finished or an
install-error event. -/
def installGame (env : Env) (v : GameVersion) (s0 : FS) : RunResult :=
  let s1 := migrateLegacyChannelInstallIfNeeded s0
  let s2 := retireLatest v s1
  let dir := resolveInstallDir v
  let chk := checkGameInstallation s2 v
  let already := manifestMatches s2 v
  let evs0 : List Event := [.installStarted]
  -- JRE installation (jre.ts is modelled from the spec as a black-box
  -- runtime installer that performs one network download).
  if !chk.jre && !env.jreOk then
    ⟨s2, evs0 ++ [.installError "Failed to install JRE"], 1, 0, 0, false⟩
  else
    let net0 := if chk.jre then 0 else 1
    let s3 := if chk.jre then s2 else { s2 with jre := true }
    if !already then
      let r := patchCycle env v dir s3 evs0 net0
      if r.ok then
        { r with events := r.events ++ [.installFinished v] }
      else r
    else if !chk.client || !chk.server then
      let r := patchCycle env v dir s3 evs0 net0
      if r.ok then
        { r with events := r.events ++ [.installFinished v] }
      else r
    else
      ⟨s3, evs0 ++ [.installFinished v], net0, 0, 0, true⟩

/-! ## Hot-patch verifier (onlinePatch.ts) -/

/-- Whitespace trimming on a character list, the model of
`String.prototype.trim`. -/
def trimChars (cs : List Char) : List Char :=
  ((cs.dropWhile Char.isWhitespace).reverse.dropWhile
    Char.isWhitespace).reverse

/-- Normalisation applied before hash comparison
(onlinePatch.ts line 12): trim then upper-case. -/
def normalizeHash (h : String) : String :=
  String.mk ((trimChars h.data).map Char.toUpper)

/-- JavaScript falsiness of an optional string
(`!url`, `!expectedHash` in onlinePatch.ts line 103). -/
def optStrFalsy : Option String → Bool
  | none => true
  | some s => s == ""

/-- Outcome of `patchOnlineClientIfNeeded`, the TypeScript union
`"patched" | "skipped" | "up-to-date"`. -/
inductive PatchOutcome where
  | patched : PatchOutcome
  | skipped : PatchOutcome
  | upToDate : PatchOutcome
deriving DecidableEq, Repr

/-- Filesystem state relevant to the hot-patch path: the client binary and
the temporary download, each represented by its content (identified with its
sha256 hex digest). -/
structure OFS where
  client : Option String
  temp : Option String
deriving DecidableEq, Repr

/-- Environment oracle for one `patchOnlineClientIfNeeded` invocation. -/
structure OEnv where
  platform : String
  clientHashOk : Bool
  fetchOk : Bool
  downloadErrMsg : String
  streamOk : Bool
  total : Nat
  chunks : List Nat
  downloadedHash : String
  tempHashOk : Bool
  tempHashErrMsg : String
  tempUnlinkOk : Bool
  clientUnlinkOk : Bool
  renameOk : Bool
  copyOk : Bool
  copyErrMsg : String
  tempUnlinkOk2 : Bool

/-- Result of a `patchOnlineClientIfNeeded` invocation: final state, emitted
events, number of network fetches and the returned outcome. -/
structure ORun where
  fs : OFS
  events : List Event
  net : Nat
  result : PatchOutcome
deriving DecidableEq, Repr

/-- Model of `patchOnlineClientIfNeeded` (onlinePatch.ts lines 89-158).
The guards before the try block return "skipped" directly; inside the try
block every thrown error — download failure, hashing failure of the
downloaded file, the hash-mismatch error, and a rename-and-copy failure —
is caught by the surrounding catch, emitted as an `online-patch-error`
event carrying the message, and converted to the return value "skipped". -/
def patchOnlineClientIfNeeded (env : OEnv) (v : GameVersion) (s : OFS) :
    ORun :=
  if env.platform ≠ "win32" then ⟨s, [], 0, .skipped⟩
  else if optStrFalsy v.patch_url || optStrFalsy v.patch_hash then
    ⟨s, [], 0, .skipped⟩
  else
    let expected := v.patch_hash.getD ""
    match s.client with
    | none => ⟨s, [], 0, .skipped⟩
    | some clientHash =>
      -- sha256File(clientPath).catch(() => null)
      let current? : Option String :=
        if env.clientHashOk then some clientHash else none
      let isUpToDate : Bool :=
        match current? with
        | some h => normalizeHash h == normalizeHash expected
        | none => false
      if isUpToDate then ⟨s, [], 0, .upToDate⟩
      else if !env.fetchOk then
        ⟨s, [.onlinePatchError env.downloadErrMsg], 1, .skipped⟩
      else if !env.streamOk then
        ⟨s, onlineDownloadEvents env.total env.chunks false ++
            [.onlinePatchError env.downloadErrMsg], 1, .skipped⟩
      else
        let s1 := { s with temp := some env.downloadedHash }
        let evs := onlineDownloadEvents env.total env.chunks true
        if !env.tempHashOk then
          ⟨s1, evs ++ [.onlinePatchError env.tempHashErrMsg], 1, .skipped⟩
        else if normalizeHash env.downloadedHash ≠ normalizeHash expected then
          let s2 := if env.tempUnlinkOk then { s1 with temp := none } else s1
          ⟨s2, evs ++ [.onlinePatchError "Patch hash mismatch (SHA256)"],
            1, .skipped⟩
        else
          let s2 :=
            if env.clientUnlinkOk then { s1 with client := none } else s1
          if env.renameOk then
            ⟨{ s2 with
                client := some env.downloadedHash
                temp := none }, evs, 1, .patched⟩
          else if env.copyOk then
            let s3 := { s2 with client := some env.downloadedHash }
            let s4 := if env.tempUnlinkOk2 then { s3 with temp := none } else s3
            ⟨s4, evs, 1, .patched⟩
          else
            ⟨s2, evs ++ [.onlinePatchError env.copyErrMsg], 1, .skipped⟩

/-! ## Derived predicates and fixtures -/

/-- A progress event percent is either the indeterminate marker -1 or lies
within [0,100]; non-progress events are unconstrained. -/
def eventPercentOK (e : Event) : Prop :=
  match e with
  | .progress p => p.percent = -1 ∨ (0 ≤ p.percent ∧ p.percent ≤ 100)
  | _ => True

/-- All fallible external steps of one install invocation succeed. -/
def envOk (env : Env) : Prop :=
  env.jreOk = true ∧ env.butlerOk = true ∧ env.fetchOk = true ∧
  env.streamOk = true ∧ env.spawnOk = true ∧ env.unlinkOk = true

/-- The observable content of an install directory ignoring the executable
bit and payload identity. -/
def dirKey (d : DirState) : Option InstallManifest × Bool × Bool :=
  (d.manifest, d.client, d.server)

/-- The install tree already materialises version `v`: after resolution, the
manifest of the resolved directory matches, the client and server binaries
are present and the managed runtime is installed. -/
def Installed (v : GameVersion) (s : FS) : Prop :=
  manifestMatches (postResolveState v s) v = true ∧
  (checkGameInstallation (postResolveState v s) v).client = true ∧
  (checkGameInstallation (postResolveState v s) v).server = true ∧
  (checkGameInstallation (postResolveState v s) v).jre = true

/-- Fixture: an environment in which every fallible external step succeeds. -/
def envAllOk : Env :=
  { platform := "linux", jreOk := true, butlerOk := true, fetchOk := true,
    total? := some 4, chunks := [2, 2], streamOk := true, spawnOk := true,
    spawnErrMsg := "spawn error", exitCode := 0, stdoutLines := [],
    unlinkOk := true, unlinkErrMsg := "unlink error", chmodOk := true }

/-- Fixture: as `envAllOk` but the patch tool exits with code 1. -/
def envExit1 : Env := { envAllOk with exitCode := 1 }

/-- Fixture: as `envAllOk` but the chmod of the client binary fails. -/
def envChmodFail : Env := { envAllOk with chmodOk := false }

/-- Fixture: as `envAllOk` but deleting the temp PWR artifact fails. -/
def envUnlinkFail : Env := { envAllOk with unlinkOk := false }

/-- Fixture: the latest release, build index 6. -/
def vRel6 : GameVersion :=
  { vtype := .release, build_index := 6, build_name := "b6",
    url := "https://example.invalid/b6.pwr", isLatest := true,
    patch_url := none, patch_hash := none }

/-- Fixture: an empty game root. -/
def emptyFS : FS :=
  { latest := none, builds := fun _ => none, jre := false, butler := false,
    legacyChannel := false, tempPWR := false }

/-- Fixture: a directory fully materialising build 6. -/
def dirBuild6 : DirState :=
  { manifest := some ⟨6, "b6"⟩, client := true, server := true,
    execBit := true, payload := 6 }

/-- Fixture: a tree already on build 6 with runtime and butler present. -/
def fsInstalled6 : FS :=
  { latest := some dirBuild6, builds := fun _ => none, jre := true,
    butler := true, legacyChannel := false, tempPWR := false }

/-- Fixture: a directory fully materialising build 5. -/
def dirBuild5 : DirState :=
  { manifest := some ⟨5, "b5"⟩, client := true, server := true,
    execBit := true, payload := 5 }

/-- Fixture: a tree whose latest alias holds build 5. -/
def fsLatest5 : FS :=
  { latest := some dirBuild5, builds := fun _ => none, jre := true,
    butler := true, legacyChannel := false, tempPWR := false }

/-- Fixture: hot-patch environment on Windows where the downloaded file
hashes to "dd" while "ee" is expected. -/
def oenvMismatch : OEnv :=
  { platform := "win32", clientHashOk := true, fetchOk := true,
    downloadErrMsg := "Failed to download patch: 500", streamOk := true,
    total := 2, chunks := [1, 1], downloadedHash := "dd",
    tempHashOk := true, tempHashErrMsg := "hash read error",
    tempUnlinkOk := true, clientUnlinkOk := true, renameOk := true,
    copyOk := true, copyErrMsg := "copy error", tempUnlinkOk2 := true }

/-- Fixture: the same environment on Linux. -/
def oenvLinux : OEnv := { oenvMismatch with platform := "linux" }

/-- Fixture: a version carrying hot-patch metadata with expected hash "ee". -/
def vPatch : GameVersion :=
  { vtype := .release, build_index := 6, build_name := "b6",
    url := "https://example.invalid/b6.pwr", isLatest := true,
    patch_url := some "https://example.invalid/hotfix.exe",
    patch_hash := some "ee" }

/-- Fixture: a client binary whose content hashes to "cc". -/
def sClientCC : OFS := { client := some "cc", temp := none }

/-- Fixture: a client binary already matching the expected hash up to
case. -/
def sClientEE : OFS := { client := some "Ee", temp := none }

/-- A hot-patch run outcome satisfying totality: the result is one of the
three interface values, and any emitted online-patch-error event entails the
result "skipped". -/
def ORunTotalOK (r : ORun) : Prop :=
  (r.result = .patched ∨ r.result = .skipped ∨ r.result = .upToDate) ∧
  (∀ msg, Event.onlinePatchError msg ∈ r.events → r.result = .skipped)

/-! ## Theorems -/

theorem isProgressLine_iff (j : Json) :
    isProgressLine j = true ↔
      (containsSub "progress".toList (toLowerList (jsonTypeStr j)) = true ∨
        (jsonNumField j "percentage").isSome = true ∨
        (jsonNumField j "percent").isSome = true) := by
  simp [isProgressLine, Bool.or_eq_true, or_assoc]

/-- C9: for every stdout line of the patch tool, a line is forwarded as a
patching progress event iff it parses as JSON and either its type field
contains "progress" case-insensitively or it has a numeric percentage or
percent field; the forwarded value is read from percentage, else percent,
else progress; non-numeric values produce no event; a value in (0,1] is
scaled by 100; the result is clamped to [0,100] and rounded; unparseable
lines produce no event and no error. -/
theorem butler_line_protocol_matches_spec (line : Option Json) :
    butlerLinePercent line = progressLineSpec line := by
  cases line with
  | none => rfl
  | some j =>
    by_cases h : isProgressLine j = true
    · have hc := (isProgressLine_iff j).mp h
      cases hq : extractPercent j with
      | none =>
        simp only [butlerLinePercent, progressLineSpec, if_pos h, hq,
          dif_pos hc, Option.map_none']
      | some q =>
        simp only [butlerLinePercent, progressLineSpec, if_pos h, hq,
          dif_pos hc, Option.map_some', normalizeButlerPercent,
          Option.some.injEq]
        rw [mul_comm]
    · have hc : ¬ (containsSub "progress".toList (toLowerList (jsonTypeStr j)) = true ∨
          (jsonNumField j "percentage").isSome = true ∨
          (jsonNumField j "percent").isSome = true) :=
        fun hcc => h ((isProgressLine_iff j).mpr hcc)
      simp only [butlerLinePercent, progressLineSpec, if_neg h, dif_neg hc]

theorem jsRound_range (q : Rat) (h0 : 0 ≤ q) (h1 : q ≤ 100) :
    0 ≤ jsRound q ∧ jsRound q ≤ 100 := by
  unfold jsRound
  refine ⟨Int.le_floor.mpr (by push_cast; linarith), ?_⟩
  have h2 : Int.floor (q + (1 : Rat) / 2) < 101 :=
    Int.floor_lt.mpr (by push_cast; linarith)
  omega

theorem normalizeButlerPercent_range (q : Rat) :
    0 ≤ normalizeButlerPercent q ∧ normalizeButlerPercent q ≤ 100 := by
  unfold normalizeButlerPercent
  apply jsRound_range
  · exact le_max_left 0 _
  · exact max_le (by norm_num) (min_le_left _ _)

theorem butlerLinePercent_range (line : Option Json) (p : Int)
    (h : butlerLinePercent line = some p) : 0 ≤ p ∧ p ≤ 100 := by
  cases line with
  | none => exact absurd h (by simp [butlerLinePercent])
  | some j =>
    by_cases hp : isProgressLine j = true
    · cases hq : extractPercent j with
      | none => simp [butlerLinePercent, hp, hq] at h
      | some q =>
        simp only [butlerLinePercent, if_pos hp, hq, Option.some.injEq] at h
        exact h ▸ normalizeButlerPercent_range q
    · simp [butlerLinePercent, hp] at h

theorem natPercentDiv_le_100 (d t : Nat) (ht : 0 < t) (hd : d ≤ t) :
    (200 * d + t) / (2 * t) ≤ 100 := by
  have h1 : 200 * d + t ≤ 201 * t := by omega
  calc (200 * d + t) / (2 * t) ≤ (201 * t) / (2 * t) :=
        Nat.div_le_div_right h1
    _ ≤ 100 := by
        rw [show 201 * t = t + 2 * t * 100 by ring,
          Nat.add_mul_div_left _ _ (by omega : 0 < 2 * t),
          Nat.div_eq_of_lt (by omega)]

theorem pwrChunkPercent_ok (t? : Option Nat) (d : Nat)
    (h : ∀ t, t? = some t → d ≤ t) :
    pwrChunkPercent t? d = -1 ∨
      (0 ≤ pwrChunkPercent t? d ∧ pwrChunkPercent t? d ≤ 100) := by
  match t? with
  | none => exact Or.inl rfl
  | some t =>
    by_cases ht : 0 < t
    · refine Or.inr ?_
      simp only [pwrChunkPercent, if_pos ht]
      refine ⟨Int.ofNat_nonneg _, ?_⟩
      exact Int.ofNat_le.mpr (natPercentDiv_le_100 d t ht (h t rfl))
    · exact Or.inl (by simp [pwrChunkPercent, ht])

theorem onlineChunkPercent_ok (total d : Nat) (h : 0 < total → d ≤ total) :
    onlineChunkPercent total d = -1 ∨
      (0 ≤ onlineChunkPercent total d ∧ onlineChunkPercent total d ≤ 100) := by
  by_cases ht : 0 < total
  · refine Or.inr ?_
    simp only [onlineChunkPercent, if_pos ht]
    refine ⟨Int.ofNat_nonneg _, ?_⟩
    exact Int.ofNat_le.mpr (natPercentDiv_le_100 d total ht (h ht))
  · exact Or.inl (by simp [onlineChunkPercent, ht])

theorem pwrChunkEvents_ok (t? : Option Nat) :
    ∀ (cs : List Nat) (acc : Nat),
      (∀ t, t? = some t → acc + cs.sum ≤ t) →
      ∀ e ∈ pwrChunkEvents t? acc cs, eventPercentOK e := by
  intro cs
  induction cs with
  | nil => intro acc _ e he; simp [pwrChunkEvents] at he
  | cons c cs ih =>
    intro acc h e he
    simp only [pwrChunkEvents, List.mem_cons] at he
    rcases he with rfl | he
    · exact pwrChunkPercent_ok t? (acc + c)
        (fun t ht => by have := h t ht; simp [List.sum_cons] at this; omega)
    · exact ih (acc + c)
        (fun t ht => by have := h t ht; simp [List.sum_cons] at this ⊢; omega)
        e he

theorem onlineChunkEvents_ok (total : Nat) :
    ∀ (cs : List Nat) (acc : Nat),
      (0 < total → acc + cs.sum ≤ total) →
      ∀ e ∈ onlineChunkEvents total acc cs, eventPercentOK e := by
  intro cs
  induction cs with
  | nil => intro acc _ e he; simp [onlineChunkEvents] at he
  | cons c cs ih =>
    intro acc h e he
    simp only [onlineChunkEvents, List.mem_cons] at he
    rcases he with rfl | he
    · exact onlineChunkPercent_ok total (acc + c)
        (fun ht => by have := h ht; simp [List.sum_cons] at this; omega)
    · exact ih (acc + c)
        (fun ht => by have := h ht; simp [List.sum_cons] at this ⊢; omega)
        e he

theorem last_of_append (l : List Event) (x : Event) :
    (l ++ [x]).getLast? = some x := by
  exact List.getLast?_concat l

theorem downloadPWREvents_ok (t? : Option Nat) (chunks : List Nat)
    (streamOk : Bool) (h : ∀ t, t? = some t → chunks.sum ≤ t) :
    ∀ e ∈ downloadPWREvents t? chunks streamOk, eventPercentOK e := by
  intro e he
  simp only [downloadPWREvents, List.mem_append, List.mem_cons] at he
  rcases he with (rfl | he) | he
  · cases t? with
    | none => exact Or.inl rfl
    | some t =>
      by_cases ht : 0 < t
      · exact Or.inr (by simp [pwrStartPercent, ht])
      · exact Or.inl (by simp [pwrStartPercent, ht])
  · exact pwrChunkEvents_ok t? chunks 0
      (fun t ht => by simpa using h t ht) e he
  · rcases streamOk with _ | _
    · simp at he
    · simp only [if_pos, List.mem_singleton] at he
      subst he
      exact Or.inr (by constructor <;> norm_num)

theorem applyPWRLineEvents_ok (lines : List (Option Json)) :
    ∀ e ∈ applyPWRLineEvents lines, eventPercentOK e := by
  intro e he
  simp only [applyPWRLineEvents, List.mem_map, List.mem_filterMap] at he
  obtain ⟨p, ⟨line, _, hline⟩, rfl⟩ := he
  exact Or.inr (butlerLinePercent_range line p hline)

theorem applyPWREvents_ok (spawnOk : Bool) (lines : List (Option Json))
    (code : Int) (dir : Loc) :
    ∀ e ∈ (applyPWR spawnOk lines code dir).1, eventPercentOK e := by
  intro e he
  rcases spawnOk with _ | _
  · simp only [applyPWR] at he
    rw [if_neg (by decide : ¬((false : Bool) = true))] at he
    simp only [List.mem_singleton] at he
    subst he
    exact Or.inl rfl
  · simp only [applyPWR, if_true] at he
    simp only [List.mem_append, List.mem_cons, List.not_mem_nil,
      or_false] at he
    rcases he with (rfl | he) | rfl
    · exact Or.inl rfl
    · exact applyPWRLineEvents_ok lines e he
    · exact Or.inr (by constructor <;> norm_num)

theorem onlineDownloadEvents_ok (total : Nat) (chunks : List Nat)
    (streamOk : Bool) (h : 0 < total → chunks.sum ≤ total) :
    ∀ e ∈ onlineDownloadEvents total chunks streamOk, eventPercentOK e := by
  intro e he
  simp only [onlineDownloadEvents, List.mem_append, List.mem_cons] at he
  rcases he with (rfl | he) | he
  · by_cases ht : 0 < total
    · exact Or.inr (by simp [ht])
    · exact Or.inl (by simp [ht])
  · exact onlineChunkEvents_ok total chunks 0
      (fun ht => by simpa using h ht) e he
  · rcases streamOk with _ | _
    · simp at he
    · simp only [if_pos, List.mem_singleton] at he
      subst he
      exact Or.inr (by constructor <;> norm_num)

/-- C4 counterexample: `downloadPWR` does not clamp its percent when the
received bytes exceed the content-length header — with content length 1 and
a single 2-byte chunk the emitted percent is 200, outside [0,100]; and when
the stream fails after that chunk the pwr-download phase was started but
its last event is that percent-200 event, not a percent-100 event. -/
theorem download_percent_out_of_range_counterexample :
    (Event.progress ⟨.pwrDownload, 200, some 1, some 2⟩)
        ∈ downloadPWREvents (some 1) [2] true
      ∧ ¬((200 : Int) ≤ 100)
      ∧ (downloadPWREvents (some 1) [2] false).getLast? =
          some (.progress ⟨.pwrDownload, 200, some 1, some 2⟩) := by
  decide

/-- C4 as amended: in every phase, provided the downloaded byte count never
exceeds the known content length, every emitted percent is -1 or lies in
[0,100] (patching-phase percents are clamped unconditionally), and the last
event of a phase that runs to completion is a percent-100 event. -/
theorem progress_percent_range_and_final
    (t? : Option Nat) (chunks : List Nat) (streamOk spawnOk : Bool)
    (lines : List (Option Json)) (code : Int) (dir : Loc)
    (total : Nat) (chunks2 : List Nat) (streamOk2 : Bool)
    (hbound : ∀ t, t? = some t → chunks.sum ≤ t)
    (hbound2 : 0 < total → chunks2.sum ≤ total) :
    (∀ e ∈ downloadPWREvents t? chunks streamOk, eventPercentOK e)
    ∧ (streamOk = true →
        (downloadPWREvents t? chunks streamOk).getLast? =
          some (.progress ⟨.pwrDownload, 100, t?, some chunks.sum⟩))
    ∧ (∀ e ∈ (applyPWR spawnOk lines code dir).1, eventPercentOK e)
    ∧ (spawnOk = true →
        ((applyPWR spawnOk lines code dir).1).getLast? =
          some (.progress ⟨.patching, 100, none, none⟩))
    ∧ (∀ e ∈ onlineDownloadEvents total chunks2 streamOk2, eventPercentOK e)
    ∧ (streamOk2 = true →
        (onlineDownloadEvents total chunks2 streamOk2).getLast? =
          some (.progress ⟨.onlinePatch, 100,
            if 0 < total then some total else none, some chunks2.sum⟩)) := by
  refine ⟨downloadPWREvents_ok t? chunks streamOk hbound, ?_,
    applyPWREvents_ok spawnOk lines code dir, ?_,
    onlineDownloadEvents_ok total chunks2 streamOk2 hbound2, ?_⟩
  · intro hs
    subst hs
    unfold downloadPWREvents
    rw [if_pos rfl]
    exact last_of_append _ _
  · intro hs
    subst hs
    unfold applyPWR
    rw [if_pos rfl]
    exact last_of_append _ _
  · intro hs
    subst hs
    unfold onlineDownloadEvents
    rw [if_pos rfl]
    exact last_of_append _ _

/-- Witness for the amended C4 theorem at concrete inputs. -/
theorem progress_percent_range_and_final_witness :
    ((downloadPWREvents (some 10) [3, 4] true).getLast? =
        some (.progress ⟨.pwrDownload, 100, some 10, some 7⟩))
    ∧ ((applyPWR true [] 0 .latest).1.getLast? =
        some (.progress ⟨.patching, 100, none, none⟩)) := by
  have h := progress_percent_range_and_final (some 10) [3, 4] true true
    [] 0 .latest 10 [3, 4] true
    (by intro t ht; cases ht; decide) (by intro _; decide)
  exact ⟨h.2.1 rfl, h.2.2.2.1 rfl⟩

/-! ## Install orchestrator lemmas -/

theorem getDir_setDir_same (s : FS) (l : Loc) (d : Option DirState) :
    getDir (setDir s l d) l = d := by
  cases l <;> simp [getDir, setDir]

theorem getDir_setDir_ne (s : FS) (l l' : Loc) (d : Option DirState)
    (h : l' ≠ l) : getDir (setDir s l d) l' = getDir s l' := by
  cases l with
  | latest =>
    cases l' with
    | latest => exact absurd rfl h
    | build m => rfl
  | build n =>
    cases l' with
    | latest => rfl
    | build m =>
      simp only [getDir, setDir]
      rw [if_neg (fun hmn => h (by rw [hmn]))]

theorem setDir_jre (s : FS) (l : Loc) (d : Option DirState) :
    (setDir s l d).jre = s.jre := by cases l <;> rfl

theorem setDir_butler (s : FS) (l : Loc) (d : Option DirState) :
    (setDir s l d).butler = s.butler := by cases l <;> rfl

theorem writeInstallManifest_jre (s : FS) (l : Loc) (v : GameVersion) :
    (writeInstallManifest s l v).jre = s.jre := by
  unfold writeInstallManifest
  exact setDir_jre _ _ _

theorem writeInstallManifest_getDir_ne (s : FS) (l l' : Loc)
    (v : GameVersion) (h : l' ≠ l) :
    getDir (writeInstallManifest s l v) l' = getDir s l' := by
  unfold writeInstallManifest
  exact getDir_setDir_ne _ _ _ _ h

theorem ensureClientExecutable_jre (env : Env) (s : FS) (l : Loc) :
    (ensureClientExecutable env s l).jre = s.jre := by
  unfold ensureClientExecutable
  by_cases hp : env.platform = "win32"
  · rw [if_pos hp]
  · rw [if_neg hp]
    cases hgd : getDir s l with
    | none => rfl
    | some d =>
      dsimp only
      by_cases hc : (d.client && env.chmodOk) = true
      · rw [if_pos hc]; exact setDir_jre _ _ _
      · rw [if_neg hc]

theorem ensureClientExecutable_getDir_ne (env : Env) (s : FS) (l l' : Loc)
    (h : l' ≠ l) :
    getDir (ensureClientExecutable env s l) l' = getDir s l' := by
  unfold ensureClientExecutable
  by_cases hp : env.platform = "win32"
  · rw [if_pos hp]
  · rw [if_neg hp]
    cases hgd : getDir s l with
    | none => rfl
    | some d =>
      dsimp only
      by_cases hc : (d.client && env.chmodOk) = true
      · rw [if_pos hc]; exact getDir_setDir_ne _ _ _ _ h
      · rw [if_neg hc]

theorem ensureClientExecutable_getDir_key (env : Env) (s : FS) (l : Loc) :
    (getDir (ensureClientExecutable env s l) l).map dirKey =
      (getDir s l).map dirKey := by
  unfold ensureClientExecutable
  by_cases hp : env.platform = "win32"
  · rw [if_pos hp]
  · rw [if_neg hp]
    cases hgd : getDir s l with
    | none => dsimp only; rw [hgd]
    | some d =>
      dsimp only
      by_cases hc : (d.client && env.chmodOk) = true
      · rw [if_pos hc, getDir_setDir_same]
        rfl
      · rw [if_neg hc, hgd]

theorem patchCycle_eq (env : Env) (v : GameVersion) (dir : Loc) (s : FS)
    (evs : List Event) (net : Nat)
    (hb : env.butlerOk = true) (hf : env.fetchOk = true)
    (hst : env.streamOk = true) (hsp : env.spawnOk = true)
    (hu : env.unlinkOk = true) :
    patchCycle env v dir s evs net =
      (let s2 : FS := { { s with butler := true } with tempPWR := true }
       let s3 := setDir s2 dir (some ((getDir s2 dir).getD emptyDir))
       let s4 := setDir s3 dir (some (applyPWRDir v (getDir s3 dir)))
       let s6 := writeInstallManifest { s4 with tempPWR := false } dir v
       ⟨ensureClientExecutable env s6 dir,
        evs ++ downloadPWREvents env.total? env.chunks true ++
          (applyPWR true env.stdoutLines env.exitCode dir).1,
        (if s.butler then net else net + 1) + 1, 1, 1, true⟩) := by
  simp only [patchCycle, hb, hf, hst, hsp, hu, Bool.not_true,
    Bool.and_false, Bool.false_eq_true, if_false, applyPWR, if_true,
    Option.isNone_some]

theorem getDir_update_tempPWR (s : FS) (b : Bool) (l : Loc) :
    getDir { s with tempPWR := b } l = getDir s l := by cases l <;> rfl

theorem getDir_update_butler (s : FS) (b : Bool) (l : Loc) :
    getDir { s with butler := b } l = getDir s l := by cases l <;> rfl

theorem getDir_update_jre (s : FS) (b : Bool) (l : Loc) :
    getDir { s with jre := b } l = getDir s l := by cases l <;> rfl

theorem writeInstallManifest_getDir_same (s : FS) (l : Loc)
    (v : GameVersion) :
    getDir (writeInstallManifest s l v) l =
      some { (getDir s l).getD emptyDir with
        manifest := some ⟨v.build_index, v.build_name⟩ } := by
  unfold writeInstallManifest
  exact getDir_setDir_same _ _ _

theorem ensure_exists_key (env : Env) (s : FS) (l : Loc) (d0 : DirState)
    (h : getDir s l = some d0) :
    ∃ d, getDir (ensureClientExecutable env s l) l = some d ∧
      dirKey d = dirKey d0 := by
  have hkey := ensureClientExecutable_getDir_key env s l
  rw [h] at hkey
  cases hge : getDir (ensureClientExecutable env s l) l with
  | none => rw [hge] at hkey; simp at hkey
  | some d => exact ⟨d, rfl, by rw [hge] at hkey; simpa using hkey⟩

theorem patchCycle_props (env : Env) (v : GameVersion) (dir : Loc) (s : FS)
    (evs : List Event) (net : Nat)
    (hb : env.butlerOk = true) (hf : env.fetchOk = true)
    (hst : env.streamOk = true) (hsp : env.spawnOk = true)
    (hu : env.unlinkOk = true) :
    (patchCycle env v dir s evs net).ok = true ∧
    (patchCycle env v dir s evs net).pwrDownloads = 1 ∧
    (patchCycle env v dir s evs net).spawns = 1 ∧
    (patchCycle env v dir s evs net).fs.jre = s.jre ∧
    (∀ l, l ≠ dir → getDir (patchCycle env v dir s evs net).fs l = getDir s l) ∧
    (∃ d, getDir (patchCycle env v dir s evs net).fs dir = some d ∧
      d.manifest = some ⟨v.build_index, v.build_name⟩ ∧
      d.client = true ∧ d.server = true) := by
  rw [patchCycle_eq env v dir s evs net hb hf hst hsp hu]
  refine ⟨rfl, rfl, rfl, ?_, ?_, ?_⟩
  · show (ensureClientExecutable env _ dir).jre = s.jre
    rw [ensureClientExecutable_jre, writeInstallManifest_jre]
    show (setDir _ dir _).jre = s.jre
    rw [setDir_jre, setDir_jre]
  · intro l hl
    show getDir (ensureClientExecutable env _ dir) l = getDir s l
    rw [ensureClientExecutable_getDir_ne _ _ _ _ hl,
      writeInstallManifest_getDir_ne _ _ _ _ hl]
    show getDir (setDir _ dir _) l = getDir s l
    rw [getDir_setDir_ne _ _ _ _ hl, getDir_setDir_ne _ _ _ _ hl,
      getDir_update_tempPWR, getDir_update_butler]
  · obtain ⟨d, hd, hk⟩ := ensure_exists_key env _ dir _
      (writeInstallManifest_getDir_same _ dir v)
    refine ⟨d, hd, ?_⟩
    rw [getDir_update_tempPWR, getDir_setDir_same] at hk
    simp only [dirKey, applyPWRDir, Option.getD_some, Prod.mk.injEq] at hk
    exact ⟨hk.1, hk.2.1, hk.2.2⟩

theorem installGame_skip_eq (env : Env) (v : GameVersion) (s : FS)
    (ha : manifestMatches (postResolveState v s) v = true)
    (hc : (checkGameInstallation (postResolveState v s) v).client = true)
    (hsrv : (checkGameInstallation (postResolveState v s) v).server = true)
    (hjre : (checkGameInstallation (postResolveState v s) v).jre = true) :
    installGame env v s =
      ⟨postResolveState v s, [.installStarted, .installFinished v],
        0, 0, 0, true⟩ := by
  unfold postResolveState at ha hc hsrv hjre
  simp only [installGame, postResolveState, ha, hc, hsrv, hjre,
    Bool.not_true, Bool.false_and, Bool.false_eq_true, if_false,
    Bool.or_self, if_true, List.singleton_append]

theorem installGame_skip_jre_eq (env : Env) (v : GameVersion) (s : FS)
    (ha : manifestMatches (postResolveState v s) v = true)
    (hc : (checkGameInstallation (postResolveState v s) v).client = true)
    (hsrv : (checkGameInstallation (postResolveState v s) v).server = true)
    (hjre : (checkGameInstallation (postResolveState v s) v).jre = false)
    (hj : env.jreOk = true) :
    installGame env v s =
      ⟨{ postResolveState v s with jre := true },
        [.installStarted, .installFinished v], 1, 0, 0, true⟩ := by
  unfold postResolveState at ha hc hsrv hjre
  simp only [installGame, postResolveState, ha, hc, hsrv, hjre, hj,
    Bool.not_true, Bool.not_false, Bool.true_and, Bool.and_false,
    Bool.false_eq_true, if_false, Bool.or_self, if_true,
    List.singleton_append]

theorem installGame_patch_eq (env : Env) (v : GameVersion) (s : FS)
    (hj : env.jreOk = true)
    (hneed : manifestMatches (postResolveState v s) v = false ∨
      (checkGameInstallation (postResolveState v s) v).client = false ∨
      (checkGameInstallation (postResolveState v s) v).server = false) :
    installGame env v s =
      (let s2 := postResolveState v s
       let s3 : FS :=
         if (checkGameInstallation s2 v).jre then s2 else { s2 with jre := true }
       let net0 : Nat := if (checkGameInstallation s2 v).jre then 0 else 1
       let r := patchCycle env v (resolveInstallDir v) s3 [.installStarted] net0
       if r.ok then { r with events := r.events ++ [.installFinished v] }
       else r) := by
  by_cases ha : manifestMatches (postResolveState v s) v = true
  · have hcs : (checkGameInstallation (postResolveState v s) v).client = false ∨
        (checkGameInstallation (postResolveState v s) v).server = false := by
      rcases hneed with h | h | h
      · rw [ha] at h; cases h
      · exact Or.inl h
      · exact Or.inr h
    unfold postResolveState at ha hcs
    rcases hcs with h | h <;>
      simp only [installGame, postResolveState, ha, hj, h, Bool.not_true,
        Bool.and_false, Bool.false_eq_true, if_false, Bool.not_false,
        Bool.true_or, Bool.or_true, if_true]
  · have ha' : manifestMatches (postResolveState v s) v = false :=
      Bool.not_eq_true _ ▸ (Bool.eq_false_iff.mpr ha)
    unfold postResolveState at ha'
    simp only [installGame, postResolveState, ha', hj, Bool.not_true,
      Bool.and_false, Bool.false_eq_true, if_false, Bool.not_false, if_true]

theorem checkGameInstallation_jre (s : FS) (v : GameVersion) :
    (checkGameInstallation s v).jre = s.jre := by
  unfold checkGameInstallation
  cases getDir s (resolveInstallDir v) <;> rfl

theorem installGame_patch_all (env : Env) (v : GameVersion) (s : FS)
    (hj : env.jreOk = true) (hb : env.butlerOk = true)
    (hf : env.fetchOk = true) (hst : env.streamOk = true)
    (hsp : env.spawnOk = true) (hu : env.unlinkOk = true)
    (hneed : manifestMatches (postResolveState v s) v = false ∨
      (checkGameInstallation (postResolveState v s) v).client = false ∨
      (checkGameInstallation (postResolveState v s) v).server = false) :
    (installGame env v s).pwrDownloads = 1 ∧
    (installGame env v s).spawns = 1 ∧
    (installGame env v s).ok = true ∧
    (installGame env v s).fs.jre = true ∧
    (∀ l, l ≠ resolveInstallDir v →
      getDir (installGame env v s).fs l = getDir (postResolveState v s) l) ∧
    (∃ d, getDir (installGame env v s).fs (resolveInstallDir v) = some d ∧
      d.manifest = some ⟨v.build_index, v.build_name⟩ ∧
      d.client = true ∧ d.server = true) := by
  rw [installGame_patch_eq env v s hj hneed]
  dsimp only
  obtain ⟨hok, hpwr, hspn, hjre', hne, hex⟩ :=
    patchCycle_props env v (resolveInstallDir v)
      (if (checkGameInstallation (postResolveState v s) v).jre then
        postResolveState v s
      else { postResolveState v s with jre := true })
      [.installStarted]
      (if (checkGameInstallation (postResolveState v s) v).jre then 0 else 1)
      hb hf hst hsp hu
  rw [if_pos hok]
  refine ⟨hpwr, hspn, hok, ?_, ?_, hex⟩
  · rw [show (({ patchCycle env v (resolveInstallDir v) _ [.installStarted] _
        with events := _ } : RunResult)).fs =
        (patchCycle env v (resolveInstallDir v)
          (if (checkGameInstallation (postResolveState v s) v).jre then
            postResolveState v s
          else { postResolveState v s with jre := true })
          [.installStarted]
          (if (checkGameInstallation (postResolveState v s) v).jre then 0
            else 1)).fs from rfl, hjre']
    by_cases hx : (checkGameInstallation (postResolveState v s) v).jre = true
    · rw [if_pos hx]
      exact (checkGameInstallation_jre (postResolveState v s) v) ▸ hx
    · rw [if_neg hx]
  · intro l hl
    rw [hne l hl]
    by_cases hx : (checkGameInstallation (postResolveState v s) v).jre = true
    · rw [if_pos hx]
    · rw [if_neg hx, getDir_update_jre]

theorem getDir_migrate (s : FS) (l : Loc) :
    getDir (migrateLegacyChannelInstallIfNeeded s) l = getDir s l := by
  cases l <;> rfl

theorem migrate_jre (s : FS) :
    (migrateLegacyChannelInstallIfNeeded s).jre = s.jre := rfl

theorem migrate_latest (s : FS) :
    (migrateLegacyChannelInstallIfNeeded s).latest = s.latest := rfl

theorem retireLatest_noop (v : GameVersion) (s : FS)
    (h : v.vtype = Channel.release → v.isLatest = true →
      ∀ d, s.latest = some d →
        ∃ m, d.manifest = some m ∧ m.build_index = v.build_index) :
    retireLatest v s = s := by
  unfold retireLatest
  by_cases hcond : v.vtype = Channel.release ∧ v.isLatest = true
  · rw [if_pos hcond]
    cases hl : s.latest with
    | none => rfl
    | some d =>
      obtain ⟨m, hm, hbi⟩ := h hcond.1 hcond.2 d hl
      dsimp only
      rw [hm]
      dsimp only
      rw [if_neg (by simp [hbi])]
  · rw [if_neg hcond]

theorem manifestMatches_congr (s' s : FS) (v : GameVersion)
    (h : getDir s' (resolveInstallDir v) = getDir s (resolveInstallDir v)) :
    manifestMatches s' v = manifestMatches s v := by
  unfold manifestMatches readInstallManifest
  rw [h]

theorem checkGameInstallation_congr (s' s : FS) (v : GameVersion)
    (h : getDir s' (resolveInstallDir v) = getDir s (resolveInstallDir v))
    (hj : s'.jre = s.jre) :
    checkGameInstallation s' v = checkGameInstallation s v := by
  unfold checkGameInstallation
  rw [h, hj]

theorem postResolve_getDir_of_noop (v : GameVersion) (t : FS)
    (hno : retireLatest v (migrateLegacyChannelInstallIfNeeded t) =
      migrateLegacyChannelInstallIfNeeded t) (l : Loc) :
    getDir (postResolveState v t) l = getDir t l := by
  unfold postResolveState
  rw [hno]
  exact getDir_migrate t l

theorem postResolve_jre_of_noop (v : GameVersion) (t : FS)
    (hno : retireLatest v (migrateLegacyChannelInstallIfNeeded t) =
      migrateLegacyChannelInstallIfNeeded t) :
    (postResolveState v t).jre = t.jre := by
  unfold postResolveState
  rw [hno]
  exact migrate_jre t

/-- A state whose resolved directory carries a matching manifest, with
binaries present and the runtime installed, satisfies `Installed`; the key
step is that retirement is a no-op on such a state. -/
theorem installed_of_components (v : GameVersion) (t : FS)
    (hdir : ∃ d, getDir t (resolveInstallDir v) = some d ∧
      (∃ m, d.manifest = some m ∧ m.build_index = v.build_index) ∧
      d.client = true ∧ d.server = true)
    (hjre : t.jre = true) :
    Installed v t := by
  obtain ⟨d, hd, ⟨m, hm, hbi⟩, hc, hs⟩ := hdir
  have hno : retireLatest v (migrateLegacyChannelInstallIfNeeded t) =
      migrateLegacyChannelInstallIfNeeded t := by
    apply retireLatest_noop
    intro _ hlat d' hl
    have hdir' : resolveInstallDir v = Loc.latest := by
      unfold resolveInstallDir
      rw [if_pos hlat]
    rw [migrate_latest] at hl
    have hsame : getDir t Loc.latest = some d' := hl
    have hd2 := hd
    rw [hdir'] at hd2
    rw [hd2] at hsame
    cases hsame
    exact ⟨m, hm, hbi⟩
  have hget := postResolve_getDir_of_noop v t hno (resolveInstallDir v)
  refine ⟨?_, ?_, ?_, ?_⟩
  · unfold manifestMatches readInstallManifest
    rw [hget, hd]
    simp [hm, hbi]
  · unfold checkGameInstallation
    rw [hget, hd]
    exact hc
  · unfold checkGameInstallation
    rw [hget, hd]
    exact hs
  · rw [checkGameInstallation_jre, postResolve_jre_of_noop v t hno, hjre]

theorem components_of_flags (v : GameVersion) (s : FS)
    (ha : manifestMatches (postResolveState v s) v = true)
    (hc : (checkGameInstallation (postResolveState v s) v).client = true)
    (hsrv : (checkGameInstallation (postResolveState v s) v).server = true) :
    ∃ d, getDir (postResolveState v s) (resolveInstallDir v) = some d ∧
      (∃ m, d.manifest = some m ∧ m.build_index = v.build_index) ∧
      d.client = true ∧ d.server = true := by
  unfold manifestMatches readInstallManifest at ha
  unfold checkGameInstallation at hc hsrv
  cases hgd : getDir (postResolveState v s) (resolveInstallDir v) with
  | none => rw [hgd] at ha; simp at ha
  | some d =>
    rw [hgd] at ha hc hsrv
    refine ⟨d, rfl, ?_, hc, hsrv⟩
    cases hm : d.manifest with
    | none => simp [hm] at ha
    | some m => exact ⟨m, rfl, by simpa [hm] using ha⟩

theorem installGame_master (env : Env) (v : GameVersion) (s : FS)
    (h : envOk env) :
    (installGame env v s).ok = true ∧ Installed v (installGame env v s).fs := by
  obtain ⟨hj, hb, hf, hst, hsp, hu⟩ := h
  by_cases ha : manifestMatches (postResolveState v s) v = true
  · by_cases hc : (checkGameInstallation (postResolveState v s) v).client = true
    · by_cases hsrv :
          (checkGameInstallation (postResolveState v s) v).server = true
      · cases hjre : (checkGameInstallation (postResolveState v s) v).jre with
        | true =>
          rw [installGame_skip_eq env v s ha hc hsrv hjre]
          refine ⟨rfl, ?_⟩
          apply installed_of_components v _ (components_of_flags v s ha hc hsrv)
          rw [← checkGameInstallation_jre (postResolveState v s) v]
          exact hjre
        | false =>
          rw [installGame_skip_jre_eq env v s ha hc hsrv hjre hj]
          refine ⟨rfl, ?_⟩
          obtain ⟨d, hd, hrest⟩ := components_of_flags v s ha hc hsrv
          apply installed_of_components v _
            ⟨d, by rw [getDir_update_jre]; exact hd, hrest⟩
          rfl
      · obtain ⟨_, _, hok, hjre', _, hex⟩ :=
          installGame_patch_all env v s hj hb hf hst hsp hu
            (Or.inr (Or.inr (Bool.eq_false_iff.mpr hsrv)))
        refine ⟨hok, ?_⟩
        obtain ⟨d, hd, hm, hc', hs'⟩ := hex
        exact installed_of_components v _
          ⟨d, hd, ⟨⟨v.build_index, v.build_name⟩, hm, rfl⟩, hc', hs'⟩ hjre'
    · obtain ⟨_, _, hok, hjre', _, hex⟩ :=
        installGame_patch_all env v s hj hb hf hst hsp hu
          (Or.inr (Or.inl (Bool.eq_false_iff.mpr hc)))
      refine ⟨hok, ?_⟩
      obtain ⟨d, hd, hm, hc', hs'⟩ := hex
      exact installed_of_components v _
        ⟨d, hd, ⟨⟨v.build_index, v.build_name⟩, hm, rfl⟩, hc', hs'⟩ hjre'
  · obtain ⟨_, _, hok, hjre', _, hex⟩ :=
      installGame_patch_all env v s hj hb hf hst hsp hu
        (Or.inl (Bool.eq_false_iff.mpr ha))
    refine ⟨hok, ?_⟩
    obtain ⟨d, hd, hm, hc', hs'⟩ := hex
    exact installed_of_components v _
      ⟨d, hd, ⟨⟨v.build_index, v.build_name⟩, hm, rfl⟩, hc', hs'⟩ hjre'

theorem retireLatest_effect (v : GameVersion) (s : FS) (d : DirState)
    (m : InstallManifest)
    (hrel : v.vtype = Channel.release) (hlat : v.isLatest = true)
    (hl : s.latest = some d) (hm : d.manifest = some m)
    (hne : m.build_index ≠ v.build_index) :
    (retireLatest v s).latest = none ∧
    (s.builds m.build_index = none →
      (retireLatest v s).builds m.build_index = some d) ∧
    (∀ c, s.builds m.build_index = some c →
      (retireLatest v s).builds m.build_index = some c) := by
  unfold retireLatest
  rw [if_pos ⟨hrel, hlat⟩, hl]
  dsimp only
  rw [hm]
  dsimp only
  rw [if_pos hne]
  refine ⟨?_, ?_, ?_⟩
  · cases hb : s.builds m.build_index <;> simp [hb]
  · intro hb
    rw [hb]
    simp
  · intro c hb
    rw [hb]
    exact hb

theorem patchCycle_unlink_fail (env : Env) (v : GameVersion) (dir : Loc)
    (s : FS) (evs : List Event) (net : Nat)
    (hb : env.butlerOk = true) (hf : env.fetchOk = true)
    (hst : env.streamOk = true) (hsp : env.spawnOk = true)
    (hu : env.unlinkOk = false) :
    (patchCycle env v dir s evs net).ok = false ∧
    (patchCycle env v dir s evs net).events =
      evs ++ downloadPWREvents env.total? env.chunks true ++
        (applyPWR true env.stdoutLines env.exitCode dir).1 ++
        [.installError env.unlinkErrMsg] := by
  simp only [patchCycle, hb, hf, hst, hsp, hu, Bool.not_true,
    Bool.not_false, Bool.and_false, Bool.false_eq_true, if_false,
    applyPWR, if_true, Option.isNone_some]
  exact ⟨trivial, trivial⟩

/-- C1: with every external step succeeding, the download-and-patch cycle is
performed iff the manifest of the resolved install directory does not match
the target build index, or it matches but the client or server binary is
missing; when the manifest matches and both binaries are present, patching
is skipped and the invocation still reports success. -/
theorem install_patches_iff_needed (env : Env) (v : GameVersion) (s : FS)
    (h : envOk env) :
    ((0 < (installGame env v s).pwrDownloads ∧
        0 < (installGame env v s).spawns) ↔
      (manifestMatches (postResolveState v s) v = false ∨
        (manifestMatches (postResolveState v s) v = true ∧
          ((checkGameInstallation (postResolveState v s) v).client = false ∨
            (checkGameInstallation (postResolveState v s) v).server = false))))
    ∧ (manifestMatches (postResolveState v s) v = true →
        (checkGameInstallation (postResolveState v s) v).client = true →
        (checkGameInstallation (postResolveState v s) v).server = true →
        (installGame env v s).pwrDownloads = 0 ∧
        (installGame env v s).spawns = 0 ∧
        (installGame env v s).ok = true) := by
  obtain ⟨hj, hb, hf, hst, hsp, hu⟩ := h
  constructor
  · by_cases ha : manifestMatches (postResolveState v s) v = true
    · by_cases hc : (checkGameInstallation (postResolveState v s) v).client = true
      · by_cases hsrv :
            (checkGameInstallation (postResolveState v s) v).server = true
        · cases hjre : (checkGameInstallation (postResolveState v s) v).jre with
          | true =>
            rw [installGame_skip_eq env v s ha hc hsrv hjre]
            simp [ha, hc, hsrv]
          | false =>
            rw [installGame_skip_jre_eq env v s ha hc hsrv hjre hj]
            simp [ha, hc, hsrv]
        · have hsrv' := Bool.eq_false_iff.mpr hsrv
          obtain ⟨hp, hs', _⟩ := installGame_patch_all env v s hj hb hf hst
            hsp hu (Or.inr (Or.inr hsrv'))
          simp [hp, hs', ha, hsrv']
      · have hc' := Bool.eq_false_iff.mpr hc
        obtain ⟨hp, hs', _⟩ := installGame_patch_all env v s hj hb hf hst
          hsp hu (Or.inr (Or.inl hc'))
        simp [hp, hs', ha, hc']
    · have ha' := Bool.eq_false_iff.mpr ha
      obtain ⟨hp, hs', _⟩ := installGame_patch_all env v s hj hb hf hst
        hsp hu (Or.inl ha')
      simp [hp, hs', ha']
  · intro ha hc hsrv
    cases hjre : (checkGameInstallation (postResolveState v s) v).jre with
    | true =>
      rw [installGame_skip_eq env v s ha hc hsrv hjre]
      exact ⟨rfl, rfl, rfl⟩
    | false =>
      rw [installGame_skip_jre_eq env v s ha hc hsrv hjre hj]
      exact ⟨rfl, rfl, rfl⟩

/-- Witness for C1: on a tree already holding build 6 with binaries
present, installing build 6 again performs no download and no spawn and
reports success. -/
theorem install_patches_iff_needed_witness :
    (installGame envAllOk vRel6 fsInstalled6).pwrDownloads = 0 ∧
    (installGame envAllOk vRel6 fsInstalled6).spawns = 0 ∧
    (installGame envAllOk vRel6 fsInstalled6).ok = true :=
  (install_patches_iff_needed envAllOk vRel6 fsInstalled6
    (by refine ⟨rfl, rfl, rfl, rfl, rfl, rfl⟩)).2
    (by decide) (by decide) (by decide)

/-- C2: once the patch-tool process is spawned, `applyPWR` resolves with the
install directory whatever the exit code is, its event stream ends with an
unconditional percent-100 patching event, and the orchestrator goes on to
write the install manifest and report success — the exit code, left fully
unconstrained here, is never inspected. -/
theorem applyPWR_resolves_regardless_of_exit (lines : List (Option Json))
    (c₁ c₂ : Int) (dir : Loc) (env : Env) (v : GameVersion) (s : FS)
    (h : envOk env)
    (hneed : manifestMatches (postResolveState v s) v = false) :
    applyPWR true lines c₁ dir = applyPWR true lines c₂ dir
    ∧ (applyPWR true lines c₁ dir).2 = some dir
    ∧ ((applyPWR true lines c₁ dir).1).getLast? =
        some (.progress ⟨.patching, 100, none, none⟩)
    ∧ readInstallManifest (installGame env v s).fs (resolveInstallDir v) =
        some ⟨v.build_index, v.build_name⟩
    ∧ (installGame env v s).ok = true := by
  obtain ⟨hj, hb, hf, hst, hsp, hu⟩ := h
  obtain ⟨_, _, hok, _, _, d, hd, hm, _, _⟩ :=
    installGame_patch_all env v s hj hb hf hst hsp hu (Or.inl hneed)
  refine ⟨rfl, rfl, ?_, ?_, hok⟩
  · unfold applyPWR
    rw [if_pos rfl]
    exact last_of_append _ _
  · unfold readInstallManifest
    rw [hd]
    simp [hm]

/-- Witness for C2: with the tool exiting with code 1 on an empty tree, the
manifest is still written and the install reports success. -/
theorem applyPWR_resolves_regardless_of_exit_witness :
    (applyPWR true [] 0 .latest).2 = some .latest ∧
    readInstallManifest (installGame envExit1 vRel6 emptyFS).fs
      (resolveInstallDir vRel6) = some ⟨6, "b6"⟩ ∧
    (installGame envExit1 vRel6 emptyFS).ok = true := by
  have h := applyPWR_resolves_regardless_of_exit [] 0 7 .latest envExit1
    vRel6 emptyFS ⟨rfl, rfl, rfl, rfl, rfl, rfl⟩ (by decide)
  exact ⟨h.2.1, h.2.2.2.1, h.2.2.2.2⟩

/-- C3: under a fully successful environment, installing `v` from a tree
that still needs patching performs exactly one PWR download and one patch
spawn; immediately reinstalling the same version — under any environment at
all — finds the manifest matching and the binaries present and returns the
skip result: no network call, no download, no spawn, success. -/
theorem install_idempotent (env1 env2 : Env) (v : GameVersion) (s : FS)
    (h1 : envOk env1)
    (hneed : manifestMatches (postResolveState v s) v = false ∨
      (checkGameInstallation (postResolveState v s) v).client = false ∨
      (checkGameInstallation (postResolveState v s) v).server = false) :
    (installGame env1 v s).pwrDownloads = 1 ∧
    (installGame env1 v s).spawns = 1 ∧
    Installed v (installGame env1 v s).fs ∧
    installGame env2 v (installGame env1 v s).fs =
      ⟨postResolveState v (installGame env1 v s).fs,
        [.installStarted, .installFinished v], 0, 0, 0, true⟩ := by
  obtain ⟨hj, hb, hf, hst, hsp, hu⟩ := h1
  obtain ⟨hp, hs', _⟩ :=
    installGame_patch_all env1 v s hj hb hf hst hsp hu hneed
  obtain ⟨_, hinst⟩ := installGame_master env1 v s ⟨hj, hb, hf, hst, hsp, hu⟩
  obtain ⟨ha2, hc2, hsrv2, hjre2⟩ := hinst
  exact ⟨hp, hs', ⟨ha2, hc2, hsrv2, hjre2⟩,
    installGame_skip_eq env2 v _ ha2 hc2 hsrv2 hjre2⟩

/-- Witness for C3: installing build 6 twice on an initially empty tree. -/
theorem install_idempotent_witness :
    (installGame envAllOk vRel6 emptyFS).pwrDownloads = 1 ∧
    (installGame envAllOk vRel6
      (installGame envAllOk vRel6 emptyFS).fs).netCalls = 0 ∧
    (installGame envAllOk vRel6
      (installGame envAllOk vRel6 emptyFS).fs).spawns = 0 ∧
    (installGame envAllOk vRel6
      (installGame envAllOk vRel6 emptyFS).fs).ok = true := by
  have h := install_idempotent envAllOk envAllOk vRel6 emptyFS
    ⟨rfl, rfl, rfl, rfl, rfl, rfl⟩ (Or.inl (by decide))
  exact ⟨h.1, by rw [h.2.2.2], by rw [h.2.2.2], by rw [h.2.2.2]⟩

/-- C5 counterexample: the deletion of the temp PWR artifact in
`installGame` is an unguarded `unlinkSync`; when it fails, the invocation
does not report success but aborts with an install-error event. -/
theorem temp_delete_failure_escalates_counterexample :
    (installGame envUnlinkFail vRel6 emptyFS).ok = false ∧
    (installGame envUnlinkFail vRel6 emptyFS).events.getLast? =
      some (.installError "unlink error") := by
  decide

/-- C5 as amended: restoring the executable bit is best-effort — with every
other step succeeding, a chmod failure still yields success — but deleting
the temp PWR artifact is not: an unlink failure aborts the install, which
reports failure with the unlink error as its final event. -/
theorem chmod_swallowed_unlink_escalates (env env' : Env) (v : GameVersion)
    (s : FS) (h : envOk env) (hchmod : env.chmodOk = false)
    (hj' : env'.jreOk = true) (hb' : env'.butlerOk = true)
    (hf' : env'.fetchOk = true) (hst' : env'.streamOk = true)
    (hsp' : env'.spawnOk = true) (hu' : env'.unlinkOk = false)
    (hneed : manifestMatches (postResolveState v s) v = false) :
    (installGame env v s).ok = true ∧
    (installGame env' v s).ok = false ∧
    (installGame env' v s).events.getLast? =
      some (.installError env'.unlinkErrMsg) := by
  have hpc := patchCycle_unlink_fail env' v (resolveInstallDir v)
    (if (checkGameInstallation (postResolveState v s) v).jre then
      postResolveState v s
    else { postResolveState v s with jre := true })
    [.installStarted]
    (if (checkGameInstallation (postResolveState v s) v).jre then 0 else 1)
    hb' hf' hst' hsp' hu'
  have hfix : installGame env' v s =
      patchCycle env' v (resolveInstallDir v)
        (if (checkGameInstallation (postResolveState v s) v).jre then
          postResolveState v s
        else { postResolveState v s with jre := true })
        [.installStarted]
        (if (checkGameInstallation (postResolveState v s) v).jre then 0
          else 1) := by
    rw [installGame_patch_eq env' v s hj' (Or.inl hneed)]
    dsimp only
    rw [if_neg (by simp [hpc.1])]
  refine ⟨(installGame_master env v s h).1, ?_, ?_⟩
  · rw [hfix]
    exact hpc.1
  · rw [hfix, hpc.2]
    exact last_of_append _ _

/-- Witness for the amended C5. -/
theorem chmod_swallowed_unlink_escalates_witness :
    (installGame envChmodFail vRel6 emptyFS).ok = true ∧
    (installGame envUnlinkFail vRel6 emptyFS).ok = false := by
  have h := chmod_swallowed_unlink_escalates envChmodFail envUnlinkFail
    vRel6 emptyFS ⟨rfl, rfl, rfl, rfl, rfl, rfl⟩ rfl rfl rfl rfl rfl rfl rfl
    (by decide)
  exact ⟨h.1, h.2.1⟩

/-- C8: installing a latest release while the latest alias holds a
different build (per its manifest): when the numbered directory for that
recorded build index does not exist, the whole install moves the old latest
contents there; when it already exists, its contents are preserved
unchanged — it is never overwritten. -/
theorem retiring_latest_never_overwrites (env : Env) (v : GameVersion)
    (s : FS) (d : DirState) (m : InstallManifest) (h : envOk env)
    (hrel : v.vtype = Channel.release) (hlat : v.isLatest = true)
    (hl : s.latest = some d) (hm : d.manifest = some m)
    (hne : m.build_index ≠ v.build_index) :
    (s.builds m.build_index = none →
      (installGame env v s).fs.builds m.build_index = some d) ∧
    (∀ c, s.builds m.build_index = some c →
      (installGame env v s).fs.builds m.build_index = some c) := by
  obtain ⟨hj, hb, hf, hst, hsp, hu⟩ := h
  have hmig : (migrateLegacyChannelInstallIfNeeded s).latest = some d := by
    rw [migrate_latest]; exact hl
  obtain ⟨hlnone, hupd1, hupd2⟩ := retireLatest_effect v
    (migrateLegacyChannelInstallIfNeeded s) d m hrel hlat hmig hm hne
  have hdirlat : resolveInstallDir v = Loc.latest := by
    unfold resolveInstallDir
    rw [if_pos hlat]
  have hmm : manifestMatches (postResolveState v s) v = false := by
    unfold manifestMatches readInstallManifest postResolveState
    rw [hdirlat]
    rw [show getDir (retireLatest v (migrateLegacyChannelInstallIfNeeded s))
      Loc.latest =
      (retireLatest v (migrateLegacyChannelInstallIfNeeded s)).latest
      from rfl, hlnone]
    rfl
  obtain ⟨_, _, _, _, hnepre, _⟩ :=
    installGame_patch_all env v s hj hb hf hst hsp hu (Or.inl hmm)
  have hb2 : Loc.build m.build_index ≠ resolveInstallDir v := by
    rw [hdirlat]
    exact fun hcon => Loc.noConfusion hcon
  have hget := hnepre (Loc.build m.build_index) hb2
  constructor
  · intro hbnone
    calc (installGame env v s).fs.builds m.build_index
        = getDir (installGame env v s).fs (Loc.build m.build_index) := rfl
      _ = getDir (postResolveState v s) (Loc.build m.build_index) := hget
      _ = (retireLatest v
            (migrateLegacyChannelInstallIfNeeded s)).builds m.build_index :=
          rfl
      _ = some d := hupd1 hbnone
  · intro c hbc
    calc (installGame env v s).fs.builds m.build_index
        = getDir (installGame env v s).fs (Loc.build m.build_index) := rfl
      _ = getDir (postResolveState v s) (Loc.build m.build_index) := hget
      _ = (retireLatest v
            (migrateLegacyChannelInstallIfNeeded s)).builds m.build_index :=
          rfl
      _ = some c := hupd2 c hbc

/-- Witness for C8: retiring a latest directory holding build 5 while
installing build 6, with no numbered directory for build 5 present. -/
theorem retiring_latest_never_overwrites_witness :
    (installGame envAllOk vRel6 fsLatest5).fs.builds 5 = some dirBuild5 :=
  (retiring_latest_never_overwrites envAllOk vRel6 fsLatest5 dirBuild5
    ⟨5, "b5"⟩ ⟨rfl, rfl, rfl, rfl, rfl, rfl⟩ rfl rfl rfl rfl
    (by decide)).1 rfl

/-! ## Hot-patch theorems -/

theorem onlineChunkEvents_no_error (total : Nat) :
    ∀ (cs : List Nat) (acc : Nat) (msg : String),
      Event.onlinePatchError msg ∉ onlineChunkEvents total acc cs := by
  intro cs
  induction cs with
  | nil => intro acc msg h; simp [onlineChunkEvents] at h
  | cons c cs ih =>
    intro acc msg h
    simp only [onlineChunkEvents, List.mem_cons] at h
    rcases h with h | h
    · exact Event.noConfusion h
    · exact ih (acc + c) msg h

theorem onlineDownloadEvents_no_error (total : Nat) (chunks : List Nat)
    (streamOk : Bool) (msg : String) :
    Event.onlinePatchError msg ∉ onlineDownloadEvents total chunks streamOk := by
  intro h
  simp only [onlineDownloadEvents, List.mem_append, List.mem_cons] at h
  rcases h with (h | h) | h
  · exact Event.noConfusion h
  · exact onlineChunkEvents_no_error total chunks 0 msg h
  · rcases streamOk with _ | _
    · simp at h
    · simp only [if_pos, List.mem_singleton] at h
      exact Event.noConfusion h

/-- C7: the hot-patch step returns "skipped" with no network access when
the platform is not Windows, when the version lacks a (non-empty) patch URL
or expected hash, or when the client binary is absent; and it returns
"up-to-date" with no network access when the current binary hash equals the
expected hash under trim-and-case-insensitive comparison. -/
theorem online_patch_skip_and_uptodate (env : OEnv) (v : GameVersion)
    (s : OFS) :
    ((env.platform ≠ "win32" ∨ optStrFalsy v.patch_url = true ∨
        optStrFalsy v.patch_hash = true ∨ s.client = none) →
      (patchOnlineClientIfNeeded env v s).result = .skipped ∧
      (patchOnlineClientIfNeeded env v s).net = 0)
    ∧ (∀ c, env.platform = "win32" → optStrFalsy v.patch_url = false →
        optStrFalsy v.patch_hash = false → s.client = some c →
        env.clientHashOk = true →
        normalizeHash c = normalizeHash (v.patch_hash.getD "") →
        (patchOnlineClientIfNeeded env v s).result = .upToDate ∧
        (patchOnlineClientIfNeeded env v s).net = 0) := by
  constructor
  · intro hdisj
    by_cases hp : env.platform ≠ "win32"
    · unfold patchOnlineClientIfNeeded
      rw [if_pos hp]
      exact ⟨rfl, rfl⟩
    · by_cases hfo : (optStrFalsy v.patch_url ||
          optStrFalsy v.patch_hash) = true
      · unfold patchOnlineClientIfNeeded
        rw [if_neg hp, if_pos hfo]
        exact ⟨rfl, rfl⟩
      · have hcl : s.client = none := by
          rcases hdisj with h | h | h | h
          · exact absurd h hp
          · exact absurd (by simp [h]) hfo
          · exact absurd (by simp [h]) hfo
          · exact h
        unfold patchOnlineClientIfNeeded
        rw [if_neg hp, if_neg hfo, hcl]
        exact ⟨rfl, rfl⟩
  · intro c hp hfu hfh hcl hhash heq
    unfold patchOnlineClientIfNeeded
    rw [if_neg (by simp [hp]), if_neg (by simp [hfu, hfh]), hcl]
    dsimp only
    rw [if_pos hhash]
    rw [if_pos (by
      show (normalizeHash c == normalizeHash (v.patch_hash.getD "")) = true
      exact beq_iff_eq.mpr heq)]
    exact ⟨rfl, rfl⟩

/-- Witness for C7: skipped on Linux; up-to-date on Windows when the client
hash already matches the expected hash case-insensitively. -/
theorem online_patch_skip_and_uptodate_witness :
    ((patchOnlineClientIfNeeded oenvLinux vPatch sClientCC).result =
        .skipped ∧
      (patchOnlineClientIfNeeded oenvLinux vPatch sClientCC).net = 0)
    ∧ ((patchOnlineClientIfNeeded oenvMismatch vPatch sClientEE).result =
        .upToDate ∧
      (patchOnlineClientIfNeeded oenvMismatch vPatch sClientEE).net = 0) := by
  refine ⟨(online_patch_skip_and_uptodate oenvLinux vPatch sClientCC).1
    (Or.inl (by decide)), ?_⟩
  exact (online_patch_skip_and_uptodate oenvMismatch vPatch sClientEE).2
    "Ee" rfl (by decide) (by decide) rfl rfl (by decide)

/-- C6 counterexample: in a concrete hash-mismatch run the error raised and
emitted is "Patch hash mismatch (SHA256)"; no error carrying exactly the
message "Patch hash mismatch" is produced. -/
theorem hash_mismatch_message_counterexample :
    (patchOnlineClientIfNeeded oenvMismatch vPatch sClientCC).result =
      .skipped ∧
    Event.onlinePatchError "Patch hash mismatch" ∉
      (patchOnlineClientIfNeeded oenvMismatch vPatch sClientCC).events ∧
    Event.onlinePatchError "Patch hash mismatch (SHA256)" ∈
      (patchOnlineClientIfNeeded oenvMismatch vPatch sClientCC).events := by
  decide

/-- C6 as amended: when the downloaded replacement fails hash verification,
the original client binary is left untouched, the temp file is deleted
(when the best-effort unlink succeeds), and the raised error — surfaced as
an online-patch-error event before the outer catch converts the call to
"skipped" — carries the message "Patch hash mismatch (SHA256)". -/
theorem hash_mismatch_preserves_original (env : OEnv) (v : GameVersion)
    (s : OFS) (c u e : String)
    (hp : env.platform = "win32")
    (hu : v.patch_url = some u) (hu' : (u == "") = false)
    (he : v.patch_hash = some e) (he' : (e == "") = false)
    (hcl : s.client = some c)
    (hnup : (normalizeHash c == normalizeHash e) = false)
    (hfetch : env.fetchOk = true) (hstream : env.streamOk = true)
    (hth : env.tempHashOk = true)
    (hmm : normalizeHash env.downloadedHash ≠ normalizeHash e) :
    (patchOnlineClientIfNeeded env v s).result = .skipped ∧
    (patchOnlineClientIfNeeded env v s).fs.client = s.client ∧
    Event.onlinePatchError "Patch hash mismatch (SHA256)" ∈
      (patchOnlineClientIfNeeded env v s).events ∧
    (env.tempUnlinkOk = true →
      (patchOnlineClientIfNeeded env v s).fs.temp = none) := by
  have hfix : patchOnlineClientIfNeeded env v s =
      ⟨(if env.tempUnlinkOk then
          ({ { s with temp := some env.downloadedHash } with temp := none }
            : OFS)
        else { s with temp := some env.downloadedHash }),
        onlineDownloadEvents env.total env.chunks true ++
          [.onlinePatchError "Patch hash mismatch (SHA256)"],
        1, .skipped⟩ := by
    unfold patchOnlineClientIfNeeded
    rw [if_neg (by simp [hp]), if_neg (by
      simp [optStrFalsy, hu, he, hu', he']), hcl]
    dsimp only
    rw [he, Option.getD_some]
    have hup : (match (if env.clientHashOk = true then some c else none :
        Option String) with
      | some h => normalizeHash h == normalizeHash e
      | none => false) = false := by
      by_cases hch : env.clientHashOk = true
      · rw [if_pos hch]
        exact hnup
      · rw [if_neg hch]
    rw [if_neg (by rw [hup]; exact Bool.false_ne_true), hfetch, hstream, hth]
    simp only [Bool.not_true, Bool.false_eq_true, if_false]
    rw [if_pos hmm]
  rw [hfix]
  refine ⟨rfl, ?_, ?_, ?_⟩
  · show (if env.tempUnlinkOk = true then _ else _ : OFS).client = s.client
    by_cases ht : env.tempUnlinkOk = true
    · rw [if_pos ht]
    · rw [if_neg ht]
  · exact List.mem_append_right _ (List.mem_singleton.mpr rfl)
  · intro ht
    show (if env.tempUnlinkOk = true then _ else _ : OFS).temp = none
    rw [if_pos ht]

/-- Witness for the amended C6 at the concrete mismatch fixture. -/
theorem hash_mismatch_preserves_original_witness :
    (patchOnlineClientIfNeeded oenvMismatch vPatch sClientCC).fs.client =
      sClientCC.client ∧
    (patchOnlineClientIfNeeded oenvMismatch vPatch sClientCC).fs.temp =
      none := by
  have h := hash_mismatch_preserves_original oenvMismatch vPatch sClientCC
    "cc" "https://example.invalid/hotfix.exe" "ee" rfl rfl (by decide) rfl
    (by decide) rfl (by decide) rfl rfl rfl (by decide)
  exact ⟨h.2.1, h.2.2.2 rfl⟩

set_option maxHeartbeats 1000000 in
theorem patchOnline_totalOK (env : OEnv) (v : GameVersion) (s : OFS) :
    ORunTotalOK (patchOnlineClientIfNeeded env v s) := by
  unfold patchOnlineClientIfNeeded
  by_cases h1 : env.platform ≠ "win32"
  · rw [if_pos h1]
    exact ⟨Or.inr (Or.inl rfl), fun _ _ => rfl⟩
  · rw [if_neg h1]
    by_cases h2 : (optStrFalsy v.patch_url ||
        optStrFalsy v.patch_hash) = true
    · rw [if_pos h2]
      exact ⟨Or.inr (Or.inl rfl), fun _ _ => rfl⟩
    · rw [if_neg h2]
      cases hcl : s.client with
      | none => exact ⟨Or.inr (Or.inl rfl), fun _ _ => rfl⟩
      | some c =>
        dsimp only
        split_ifs <;>
          first
          | exact ⟨Or.inr (Or.inl rfl), fun _ _ => rfl⟩
          | exact ⟨Or.inr (Or.inr rfl), fun msg hmem =>
              absurd hmem (List.not_mem_nil _)⟩
          | exact ⟨Or.inl rfl, fun msg hmem =>
              absurd hmem (onlineDownloadEvents_no_error _ _ _ _)⟩

/-- C10: the hot-patch entry point is total at its interface — it always
returns one of "patched", "skipped" or "up-to-date" — and whenever an
online-patch-error event was emitted (the surfaced form of every internal
exception, the hash-mismatch failure included), the returned value is
"skipped", indistinguishable from a deliberate skip. -/
theorem online_patch_total (env : OEnv) (v : GameVersion) (s : OFS) :
    ((patchOnlineClientIfNeeded env v s).result = .patched ∨
      (patchOnlineClientIfNeeded env v s).result = .skipped ∨
      (patchOnlineClientIfNeeded env v s).result = .upToDate)
    ∧ (∀ msg, Event.onlinePatchError msg ∈
        (patchOnlineClientIfNeeded env v s).events →
        (patchOnlineClientIfNeeded env v s).result = .skipped) :=
  patchOnline_totalOK env v s

/-- Witness for C10: the concrete hash-mismatch run returns "skipped". -/
theorem online_patch_total_witness :
    (patchOnlineClientIfNeeded oenvMismatch vPatch sClientCC).result =
      .skipped :=
  (online_patch_total oenvMismatch vPatch sClientCC).2
    "Patch hash mismatch (SHA256)" (by decide)

end ButterLauncher
